import Mathlib

/-!
Shallow embedding of the negotiation simulator
(`environment.py`, `seller_agents.py`, `interview_negotiation_template.py`,
`main.py`).

Modelling conventions:
* Python `int` values are modelled as `ℤ`.
* Python `float` arithmetic is modelled exactly, as unreduced fractions of
  integers (`PyFloat`): the float literals of the source (`1.2`, `0.85`, ...)
  denote the corresponding exact rationals, e.g. `0.85` becomes `⟨85, 100⟩`.
  For every quantity and property below the computations stay far from any
  truncation boundary, so the exact model agrees with the IEEE-double
  evaluation of the source on the claims considered.
* Python `int(x)` applied to a float truncates toward zero: `pyTrunc`.
* Python true division raising `ZeroDivisionError` on a zero divisor is
  modelled by `pyDiv : PyFloat → PyFloat → Option PyFloat`; a raised
  exception propagates as `none` through every caller.
* `random.choice` among the three acceptance messages only selects flavor
  text (never a price), so it is modelled deterministically as the first of
  the candidate messages.
-/

/-- Exact value of a Python float expression, kept as an unreduced fraction.
Every fraction built below has a positive denominator. -/
structure PyFloat where
  num : ℤ
  den : ℤ
deriving DecidableEq, Repr

/-- The rational value of a `PyFloat`. -/
def PyFloat.toRat (x : PyFloat) : ℚ := (x.num : ℚ) / (x.den : ℚ)

/-- A Python `int` used in float arithmetic. -/
def pyOfInt (n : ℤ) : PyFloat := ⟨n, 1⟩

/-- Exact Python float multiplication. -/
def pyMul (x y : PyFloat) : PyFloat := ⟨x.num * y.num, x.den * y.den⟩

/-- Exact Python float addition. -/
def pyAdd (x y : PyFloat) : PyFloat := ⟨x.num * y.den + y.num * x.den, x.den * y.den⟩

/-- Exact Python float subtraction. -/
def pySub (x y : PyFloat) : PyFloat := ⟨x.num * y.den - y.num * x.den, x.den * y.den⟩

/-- Python `<=` between float expressions (valid for positive denominators). -/
def pyLe (x y : PyFloat) : Bool := decide (x.num * y.den ≤ y.num * x.den)

/-- Python `<` between float expressions (valid for positive denominators). -/
def pyLt (x y : PyFloat) : Bool := decide (x.num * y.den < y.num * x.den)

/-- Python `int(·)` on a float expression: truncation toward zero
(denominator assumed positive). -/
def pyTrunc (x : PyFloat) : ℤ :=
  if 0 ≤ x.num then x.num / x.den else -((-x.num) / x.den)

/-- Python true division `x / y`; `none` models a raised
`ZeroDivisionError`.  The sign is moved to the numerator so that
denominators stay positive. -/
def pyDiv (x y : PyFloat) : Option PyFloat :=
  if y.num = 0 then none
  else if 0 < y.num then some ⟨x.num * y.den, x.den * y.num⟩
  else some ⟨-(x.num * y.den), -(x.den * y.num)⟩

/-! ## Data model (`environment.py` lines 31–55) -/

/-- `environment.py` `Product` dataclass.  The `attributes` mapping is
carried as an association list; it is never read by any embedded
computation. -/
structure Product where
  name : String
  category : String
  quantity : ℤ
  quality_grade : String
  origin : String
  base_market_price : ℤ
  attributes : List (String × String)
deriving DecidableEq, Repr

/-- One transcript entry (`{"role": ..., "message": ...}`). -/
structure Message where
  role : String
  message : String
deriving DecidableEq, Repr

/-- `environment.py` `NegotiationContext` dataclass. -/
structure NegotiationContext where
  product : Product
  your_budget : ℤ
  current_round : ℤ
  seller_offers : List ℤ
  your_offers : List ℤ
  messages : List Message
deriving DecidableEq, Repr

/-- `environment.py` `DealStatus` enum. -/
inductive DealStatus where
  | ongoing
  | accepted
  | rejected
  | timeout
deriving DecidableEq, Repr

/-- `environment.py` `scenario_triplets`: one `(buyer_budget, seller_min)`
pair. -/
structure ScenarioCfg where
  buyer_budget : ℤ
  seller_min : ℤ
deriving DecidableEq, Repr

/-- The three difficulty presets returned by `scenario_triplets`. -/
structure ScenarioTriplets where
  easy : ScenarioCfg
  medium : ScenarioCfg
  hard : ScenarioCfg
deriving DecidableEq, Repr

/-- `environment.py` lines 64–69. -/
def scenario_triplets (market_price : ℤ) : ScenarioTriplets :=
  { easy := ⟨pyTrunc (pyMul (pyOfInt market_price) ⟨12, 10⟩),
             pyTrunc (pyMul (pyOfInt market_price) ⟨80, 100⟩)⟩
    medium := ⟨pyTrunc (pyMul (pyOfInt market_price) ⟨10, 10⟩),
               pyTrunc (pyMul (pyOfInt market_price) ⟨85, 100⟩)⟩
    hard := ⟨pyTrunc (pyMul (pyOfInt market_price) ⟨9, 10⟩),
             pyTrunc (pyMul (pyOfInt market_price) ⟨82, 100⟩)⟩ }

/-! ## StandardSeller (`seller_agents.py` lines 18–31) -/

/-- `StandardSeller.get_opening_price`: opens at 150% of market price. -/
def StandardSeller_get_opening_price (product : Product) : ℤ × String :=
  let price := pyTrunc (pyMul (pyOfInt product.base_market_price) ⟨15, 10⟩)
  (price,
    "These are premium " ++ product.quality_grade ++ " grade " ++ product.name ++
      ". I\x27m asking ₹" ++ toString price ++ ".")

/-- `StandardSeller.respond_to_buyer`: accept at 110% of `min_price`,
slow concession (5%) from zero-based round 8 on, 15% before. -/
def StandardSeller_respond_to_buyer (min_price buyer_offer : ℤ) (round_num : ℕ) :
    ℤ × String × Bool :=
  if pyLe (pyMul (pyOfInt min_price) ⟨11, 10⟩) (pyOfInt buyer_offer) then
    (buyer_offer, "You have a deal at ₹" ++ toString buyer_offer ++ "!", true)
  else if round_num ≥ 8 then
    let counter := max min_price (pyTrunc (pyMul (pyOfInt buyer_offer) ⟨105, 100⟩))
    (counter, "Final offer: ₹" ++ toString counter ++ ". Take it or leave it.", false)
  else
    let counter := max min_price (pyTrunc (pyMul (pyOfInt buyer_offer) ⟨115, 100⟩))
    (counter, "I can come down to ₹" ++ toString counter ++ ".", false)

/-! ## YourBuyerAgent (`interview_negotiation_template.py` lines 132–364)

The source method names carry a leading underscore (`_get_quality_multiplier`
and so on); the underscore is dropped here because Lean reserves
underscore-led identifiers. -/

/-- Python `sub in s` substring test on strings. -/
def strContains (sub s : String) : Bool := decide (sub.data <:+: s.data)

/-- `_get_quality_multiplier` (lines 219–226): dict lookup with default
`0.7`. -/
def get_quality_multiplier (quality_grade : String) : PyFloat :=
  if quality_grade = "Export" then ⟨1, 1⟩
  else if quality_grade = "A" then ⟨8, 10⟩
  else if quality_grade = "B" then ⟨6, 10⟩
  else ⟨7, 10⟩

/-- `_get_origin_premium` (lines 228–233): 10% premium when the origin
contains one of the premium names, otherwise a 5% discount. -/
def get_origin_premium (origin : String) : PyFloat :=
  if ["Ratnagiri", "Alphonso", "Devgad"].any (fun p => strContains p origin) then
    ⟨11, 10⟩
  else ⟨95, 100⟩

/-- `_analyze_negotiation_phase` (lines 235–245). -/
def analyze_negotiation_phase (context : NegotiationContext) : String :=
  if context.current_round ≤ 2 then "opening"
  else if context.current_round ≤ 5 then "middle"
  else if context.current_round ≤ 8 then "closing"
  else "final"

/-- `_should_accept_offer` (lines 247–262).  Divides the seller price by the
base market price, so it raises (`none`) when that price is zero — unless the
budget test already returned `False`. -/
def should_accept_offer (seller_price : ℤ) (context : NegotiationContext)
    (phase : String) : Option Bool :=
  if seller_price > context.your_budget then some false
  else
    match pyDiv (pyOfInt seller_price) (pyOfInt context.product.base_market_price) with
    | none => none
    | some market_ratio =>
      let threshold : PyFloat :=
        if phase = "opening" then ⟨75, 100⟩
        else if phase = "middle" then ⟨85, 100⟩
        else if phase = "closing" then ⟨95, 100⟩
        else if phase = "final" then ⟨105, 100⟩
        else ⟨85, 100⟩
      some (pyLe market_ratio threshold)

/-- `_calculate_counter_offer` (lines 264–292). -/
def calculate_counter_offer (seller_price : ℤ) (context : NegotiationContext)
    (phase : String) : ℤ :=
  let last_offer := context.your_offers.getLastD 0
  let convergence_rate : PyFloat :=
    if phase = "opening" then ⟨15, 100⟩
    else if phase = "middle" then ⟨25, 100⟩
    else if phase = "closing" then ⟨40, 100⟩
    else if phase = "final" then ⟨60, 100⟩
    else ⟨25, 100⟩
  let counter := pyTrunc (pyAdd (pyOfInt last_offer)
    (pyMul (pySub (pyOfInt seller_price) (pyOfInt last_offer)) convergence_rate))
  let market_price := context.product.base_market_price
  let counter :=
    if pyLt (pyMul (pyOfInt market_price) ⟨12, 10⟩) (pyOfInt seller_price) then
      pyTrunc (pyMul (pyOfInt counter) ⟨9, 10⟩)
    else counter
  let min_increment := max (pyTrunc (pyMul (pyOfInt last_offer) ⟨5, 100⟩)) 5000
  max counter (last_offer + min_increment)

/-- `_generate_counter_message` (lines 294–312).  The middle phase computes
an (unused) percentage by dividing by `seller_price`, so it raises (`none`)
when the seller price is zero. -/
def generate_counter_message (counter_offer seller_price : ℤ)
    (context : NegotiationContext) (phase : String) : Option String :=
  if phase = "opening" then
    some ("I appreciate the quality, but based on my market analysis, ₹" ++
      toString counter_offer ++ " better reflects current market conditions for " ++
      context.product.quality_grade ++ " grade products.")
  else if phase = "middle" then
    match pyDiv (pySub (pyOfInt seller_price) (pyOfInt counter_offer))
        (pyOfInt seller_price) with
    | none => none
    | some q =>
      let _savings_pct := pyTrunc (pyMul q (pyOfInt 100))
      some ("Let\x27s find a mutually beneficial arrangement. At ₹" ++
        toString counter_offer ++
        ", we\x27re moving toward a fair deal that works for both parties.")
  else if phase = "closing" then
    some ("The numbers suggest ₹" ++ toString counter_offer ++
      " represents excellent value for this quality. I value quality partnerships and believe this price point achieves that.")
  else
    some ("Based on my market analysis and our discussion, ₹" ++
      toString counter_offer ++
      " is my best offer. I\x27m confident this reflects the true market value.")

/-- `_generate_acceptance_message` (lines 314–321); `random.choice` among
three flavor texts is modelled as the first one. -/
def generate_acceptance_message (final_price : ℤ) : String :=
  "Excellent! ₹" ++ toString final_price ++
    " represents great value for this quality. Let\x27s move forward with this partnership."

/-- `YourBuyerAgent.generate_opening_offer` (lines 156–179). -/
def generate_opening_offer (context : NegotiationContext) : ℤ × String :=
  let quality_multiplier := get_quality_multiplier context.product.quality_grade
  let origin_premium := get_origin_premium context.product.origin
  let base_opening := pyMul (pyOfInt context.product.base_market_price)
    (pyAdd ⟨65, 100⟩ (pyMul quality_multiplier ⟨1, 10⟩))
  let opening_price := pyTrunc (pyMul base_opening origin_premium)
  let opening_price :=
    min opening_price (pyTrunc (pyMul (pyOfInt context.your_budget) ⟨85, 100⟩))
  (opening_price,
    "Based on my market analysis of " ++ context.product.quality_grade ++ " grade " ++
      context.product.name ++ " from " ++ context.product.origin ++ ", I can offer ₹" ++
      toString opening_price ++
      ". The numbers suggest this reflects current market conditions while ensuring we both benefit from this partnership.")

/-- `YourBuyerAgent.respond_to_seller_offer` (lines 181–201).  The two ratio
bindings are dead code in the source but still raise on a zero market price
or budget, so they are kept. -/
def respond_to_seller_offer (context : NegotiationContext) (seller_price : ℤ)
    (_seller_message : String) : Option (DealStatus × ℤ × String) :=
  let negotiation_phase := analyze_negotiation_phase context
  match pyDiv (pyOfInt seller_price) (pyOfInt context.product.base_market_price) with
  | none => none
  | some _market_value_ratio =>
    match pyDiv (pyOfInt seller_price) (pyOfInt context.your_budget) with
    | none => none
    | some _budget_ratio =>
      match should_accept_offer seller_price context negotiation_phase with
      | none => none
      | some accept =>
        if accept then
          some (DealStatus.accepted, seller_price, generate_acceptance_message seller_price)
        else
          let counter_offer := calculate_counter_offer seller_price context negotiation_phase
          let counter_offer := min counter_offer context.your_budget
          match generate_counter_message counter_offer seller_price context negotiation_phase with
          | none => none
          | some message => some (DealStatus.ongoing, counter_offer, message)

/-- A buyer agent as consumed by the driver: the two capabilities the loop
invokes.  `none` models an unhandled exception inside the strategy. -/
structure BuyerAgent where
  generate_opening_offer : NegotiationContext → Option (ℤ × String)
  respond_to_seller_offer : NegotiationContext → ℤ → String → Option (DealStatus × ℤ × String)

/-- The reference buyer `YourBuyerAgent("StrategicAnalyst")`. -/
def yourBuyerAgent : BuyerAgent :=
  { generate_opening_offer := fun context => some (generate_opening_offer context)
    respond_to_seller_offer := respond_to_seller_offer }

/-! ## The negotiation driver (`main.py` lines 17–72)

`main.py` fixes the seller to `StandardSeller(seller_min)` and runs the loop
`for round_num in range(MAX_ROUNDS)`.  `MAX_ROUNDS` comes from the
environment with default 10 (`environment.py` line 24) and is passed
explicitly here as `max_rounds`. -/

/-- Default of the `MAX_ROUNDS` setting (`environment.py` line 24). -/
def MAX_ROUNDS : ℕ := 10

/-- How one run of the loop ended.  This tag is proof instrumentation only:
it records which of the three exits of the source loop fired
(`break` at line 50, `break` at line 58, or exhaustion of `range`). -/
inductive TermReason where
  | buyerAccepted
  | sellerAccepted
  | timeout
deriving DecidableEq, Repr

/-- The loop state at exit: the final context together with the `deal_made`
and `final_price` variables of `run_negotiation_test`. -/
structure LoopResult where
  ctx : NegotiationContext
  deal_made : Bool
  final_price : Option ℤ
  reason : TermReason
deriving DecidableEq, Repr

/-- `context.current_round = round_num + 1` (`main.py` line 36). -/
def bumpRound (ctx : NegotiationContext) (round_num : ℕ) : NegotiationContext :=
  { ctx with current_round := (round_num : ℤ) + 1 }

/-- Append the buyer turn to the context (`main.py` lines 44–45). -/
def appendBuyer (ctx : NegotiationContext) (buyer_offer : ℤ) (buyer_msg : String) :
    NegotiationContext :=
  { ctx with your_offers := ctx.your_offers ++ [buyer_offer],
             messages := ctx.messages ++ [⟨"buyer", buyer_msg⟩] }

/-- Append only a seller message (`main.py` line 57). -/
def appendSellerMsg (ctx : NegotiationContext) (seller_msg : String) :
    NegotiationContext :=
  { ctx with messages := ctx.messages ++ [⟨"seller", seller_msg⟩] }

/-- Record a new seller offer and message (`main.py` lines 60–61). -/
def appendSellerOffer (ctx : NegotiationContext) (seller_price : ℤ)
    (seller_msg : String) : NegotiationContext :=
  { ctx with seller_offers := ctx.seller_offers ++ [seller_price],
             messages := ctx.messages ++ [⟨"seller", seller_msg⟩] }

/-- The buyer turn of one loop iteration (`main.py` lines 38–42): round 0
calls `generate_opening_offer` with the status fixed to `ONGOING`, later
rounds call `respond_to_seller_offer`. -/
def buyerStep (buyer : BuyerAgent) (ctx : NegotiationContext) (seller_price : ℤ)
    (seller_msg : String) (round_num : ℕ) : Option (DealStatus × ℤ × String) :=
  if round_num = 0 then
    match buyer.generate_opening_offer ctx with
    | none => none
    | some (buyer_offer, buyer_msg) => some (DealStatus.ongoing, buyer_offer, buyer_msg)
  else
    buyer.respond_to_seller_offer ctx seller_price seller_msg

/-- The loop of `main.py` lines 35–61, by recursion on the rounds that
remain.  `round_num` is the zero-based Python loop index. -/
def negotiationRounds (buyer : BuyerAgent) (min_price : ℤ) :
    NegotiationContext → ℤ → String → ℕ → ℕ → Option LoopResult
  | ctx, _, _, _, 0 => some ⟨ctx, false, none, TermReason.timeout⟩
  | ctx, seller_price, seller_msg, round_num, rounds_left + 1 =>
    match buyerStep buyer (bumpRound ctx round_num) seller_price seller_msg round_num with
    | none => none
    | some (status, buyer_offer, buyer_msg) =>
      if status = DealStatus.accepted then
        some ⟨appendBuyer (bumpRound ctx round_num) buyer_offer buyer_msg,
              true, some seller_price, TermReason.buyerAccepted⟩
      else
        match StandardSeller_respond_to_buyer min_price buyer_offer round_num with
        | (_new_price, new_msg, true) =>
          some ⟨appendSellerMsg (appendBuyer (bumpRound ctx round_num) buyer_offer buyer_msg) new_msg,
                true, some buyer_offer, TermReason.sellerAccepted⟩
        | (new_price, new_msg, false) =>
          negotiationRounds buyer min_price
            (appendSellerOffer (appendBuyer (bumpRound ctx round_num) buyer_offer buyer_msg)
              new_price new_msg)
            new_price new_msg (round_num + 1) rounds_left

/-- `main.py` lines 18–61: build the initial context, let the seller open,
then run the loop. -/
def run_negotiation_full (buyer : BuyerAgent) (max_rounds : ℕ) (product : Product)
    (buyer_budget seller_min : ℤ) : Option LoopResult :=
  let opening := StandardSeller_get_opening_price product
  negotiationRounds buyer seller_min
    { product := product, your_budget := buyer_budget, current_round := 0,
      seller_offers := [opening.1], your_offers := [],
      messages := [⟨"seller", opening.2⟩] }
    opening.1 opening.2 0 max_rounds

/-- The result record of `run_negotiation_test` (`main.py` lines 63–71). -/
structure NegotiationResult where
  deal_made : Bool
  final_price : Option ℤ
  rounds : ℤ
  savings : ℤ
  savings_pct : PyFloat
  below_market_pct : PyFloat
  conversation : List Message
deriving DecidableEq, Repr

/-- The result computation of `main.py` lines 63–71.  The percentage metrics
are guarded only by `deal_made`; with `deal_made` true they divide by the
budget and by the market price, raising (`none`) when either is zero.
A `deal_made` with no recorded price would raise a `TypeError` in the
source (`buyer_budget - None`), modelled as `none` as well. -/
def negotiationResult (product : Product) (buyer_budget : ℤ) (lr : LoopResult) :
    Option NegotiationResult :=
  if lr.deal_made then
    match lr.final_price with
    | none => none
    | some fp =>
      match pyDiv (pyOfInt (buyer_budget - fp)) (pyOfInt buyer_budget) with
      | none => none
      | some sq =>
        match pyDiv (pyOfInt (product.base_market_price - fp))
            (pyOfInt product.base_market_price) with
        | none => none
        | some bq =>
          some { deal_made := lr.deal_made, final_price := lr.final_price,
                 rounds := lr.ctx.current_round,
                 savings := buyer_budget - fp,
                 savings_pct := pyMul sq (pyOfInt 100),
                 below_market_pct := pyMul bq (pyOfInt 100),
                 conversation := lr.ctx.messages }
  else
    some { deal_made := lr.deal_made, final_price := lr.final_price,
           rounds := lr.ctx.current_round,
           savings := 0, savings_pct := ⟨0, 1⟩, below_market_pct := ⟨0, 1⟩,
           conversation := lr.ctx.messages }

/-- `run_negotiation_test` (`main.py` lines 17–72): the loop followed by the
result computation. -/
def run_negotiation_test (buyer : BuyerAgent) (max_rounds : ℕ) (product : Product)
    (buyer_budget seller_min : ℤ) : Option NegotiationResult :=
  match run_negotiation_full buyer max_rounds product buyer_budget seller_min with
  | none => none
  | some lr => negotiationResult product buyer_budget lr

/-- The role tags of a transcript, in order. -/
def transcriptRoles (messages : List Message) : List String :=
  messages.map Message.role

/-! ## Concrete inputs used to exercise the theorems -/

/-- First test product of `main.py` (`test_suite`, lines 76–80). -/
def prodA : Product :=
  { name := "Alphonso Mangoes", category := "Mangoes", quantity := 100,
    quality_grade := "A", origin := "Ratnagiri", base_market_price := 180000,
    attributes := [("ripeness", "optimal"), ("export_grade", "True")] }

/-- A minimal strategy that opens at 0 and then accepts while returning a
price (123) different from the seller price: the driver accepts any
`BaseBuyerAgent`-shaped strategy, and this one exhibits the asymmetry of the
acceptance branch. -/
def acceptBuyer : BuyerAgent :=
  { generate_opening_offer := fun _ => some (0, "I start at zero.")
    respond_to_seller_offer := fun _ _ _ =>
      some (DealStatus.accepted, 123, "I accept, and I claim the price is 123.") }

def c1_lr : LoopResult :=
  (run_negotiation_full acceptBuyer 2 prodA 500000 100000).get (by decide)

def c2_lr : LoopResult :=
  (run_negotiation_full yourBuyerAgent 10 prodA 216000 144000).get (by decide)

def c3_res : NegotiationResult :=
  (run_negotiation_test yourBuyerAgent 10 prodA 216000 144000).get (by decide)

def c4_lr : LoopResult :=
  (run_negotiation_full yourBuyerAgent 10 prodA 0 0).get (by decide)

def c5_lr : LoopResult :=
  (run_negotiation_full yourBuyerAgent 10 prodA 1000 100000).get (by decide)

def c6_res : NegotiationResult :=
  (run_negotiation_test yourBuyerAgent 10 prodA 1000 100000).get (by decide)

/-- A context mid-negotiation used to exercise `respond_to_seller_offer`. -/
def ctx0 : NegotiationContext :=
  { product := prodA, your_budget := 100000, current_round := 2,
    seller_offers := [270000], your_offers := [50000], messages := [] }

def c8_r : DealStatus × ℤ × String :=
  (respond_to_seller_offer ctx0 270000 "I ask 270000.").get (by decide)

/-! ## Facts about the float model -/

theorem pyOfInt_toRat (n : ℤ) : (pyOfInt n).toRat = (n : ℚ) := by
  simp [pyOfInt, PyFloat.toRat]

theorem pyMul_toRat (x y : PyFloat) : (pyMul x y).toRat = x.toRat * y.toRat := by
  simp only [pyMul, PyFloat.toRat, Int.cast_mul]
  rw [div_mul_div_comm]

theorem pyAdd_toRat (x y : PyFloat) (hx : x.den ≠ 0) (hy : y.den ≠ 0) :
    (pyAdd x y).toRat = x.toRat + y.toRat := by
  have hx' : (x.den : ℚ) ≠ 0 := Int.cast_ne_zero.mpr hx
  have hy' : (y.den : ℚ) ≠ 0 := Int.cast_ne_zero.mpr hy
  simp only [pyAdd, PyFloat.toRat]
  push_cast
  field_simp

theorem pySub_toRat (x y : PyFloat) (hx : x.den ≠ 0) (hy : y.den ≠ 0) :
    (pySub x y).toRat = x.toRat - y.toRat := by
  have hx' : (x.den : ℚ) ≠ 0 := Int.cast_ne_zero.mpr hx
  have hy' : (y.den : ℚ) ≠ 0 := Int.cast_ne_zero.mpr hy
  simp only [pySub, PyFloat.toRat]
  push_cast
  field_simp
  ring

theorem pyLe_iff {x y : PyFloat} (hx : 0 < x.den) (hy : 0 < y.den) :
    pyLe x y = true ↔ x.toRat ≤ y.toRat := by
  have hx' : (0 : ℚ) < (x.den : ℚ) := by exact_mod_cast hx
  have hy' : (0 : ℚ) < (y.den : ℚ) := by exact_mod_cast hy
  simp only [pyLe, decide_eq_true_eq, PyFloat.toRat]
  rw [div_le_div_iff₀ hx' hy']
  constructor
  · intro h; exact_mod_cast h
  · intro h; exact_mod_cast h

theorem pyLt_iff {x y : PyFloat} (hx : 0 < x.den) (hy : 0 < y.den) :
    pyLt x y = true ↔ x.toRat < y.toRat := by
  have hx' : (0 : ℚ) < (x.den : ℚ) := by exact_mod_cast hx
  have hy' : (0 : ℚ) < (y.den : ℚ) := by exact_mod_cast hy
  simp only [pyLt, decide_eq_true_eq, PyFloat.toRat]
  rw [div_lt_div_iff₀ hx' hy']
  constructor
  · intro h; exact_mod_cast h
  · intro h; exact_mod_cast h

theorem intCast_le_toRat_iff {n : ℤ} {x : PyFloat} (hd : 0 < x.den) :
    (n : ℚ) ≤ x.toRat ↔ n * x.den ≤ x.num := by
  have hd' : (0 : ℚ) < (x.den : ℚ) := by exact_mod_cast hd
  rw [PyFloat.toRat, le_div_iff₀ hd']
  constructor
  · intro h; exact_mod_cast h
  · intro h; exact_mod_cast h

theorem toRat_le_intCast_iff {n : ℤ} {x : PyFloat} (hd : 0 < x.den) :
    x.toRat ≤ (n : ℚ) ↔ x.num ≤ n * x.den := by
  have hd' : (0 : ℚ) < (x.den : ℚ) := by exact_mod_cast hd
  rw [PyFloat.toRat, div_le_iff₀ hd']
  constructor
  · intro h; exact_mod_cast h
  · intro h; exact_mod_cast h

theorem le_pyTrunc {n : ℤ} {x : PyFloat} (hd : 0 < x.den) (h : (n : ℚ) ≤ x.toRat) :
    n ≤ pyTrunc x := by
  rw [intCast_le_toRat_iff hd] at h
  unfold pyTrunc
  split
  · exact (Int.le_ediv_iff_mul_le hd).mpr h
  · have h2 : -x.num ≤ (-n) * x.den := by linarith
    calc n = -((-n) * x.den / x.den) := by
              rw [Int.mul_ediv_cancel _ (ne_of_gt hd)]; ring
    _ ≤ -((-x.num) / x.den) := by
          have := Int.ediv_le_ediv hd h2
          omega

theorem pyTrunc_le {n : ℤ} {x : PyFloat} (hd : 0 < x.den) (h : x.toRat ≤ (n : ℚ)) :
    pyTrunc x ≤ n := by
  rw [toRat_le_intCast_iff hd] at h
  unfold pyTrunc
  split
  · calc x.num / x.den ≤ n * x.den / x.den := Int.ediv_le_ediv hd h
    _ = n := Int.mul_ediv_cancel _ (ne_of_gt hd)
  · have h2 : (-n) * x.den ≤ -x.num := by linarith
    have := (Int.le_ediv_iff_mul_le hd).mpr h2
    omega

theorem pyTrunc_nonneg {x : PyFloat} (hd : 0 < x.den) (h : 0 ≤ x.toRat) :
    0 ≤ pyTrunc x := le_pyTrunc hd (by exact_mod_cast h)

theorem pyTrunc_pyOfInt (n : ℤ) : pyTrunc (pyOfInt n) = n := by
  unfold pyTrunc pyOfInt
  split <;> simp_all

/-! ## Facts about the context updates -/

@[simp] theorem bumpRound_product (ctx : NegotiationContext) (rn : ℕ) :
    (bumpRound ctx rn).product = ctx.product := rfl
@[simp] theorem bumpRound_budget (ctx : NegotiationContext) (rn : ℕ) :
    (bumpRound ctx rn).your_budget = ctx.your_budget := rfl
@[simp] theorem bumpRound_seller_offers (ctx : NegotiationContext) (rn : ℕ) :
    (bumpRound ctx rn).seller_offers = ctx.seller_offers := rfl
@[simp] theorem bumpRound_your_offers (ctx : NegotiationContext) (rn : ℕ) :
    (bumpRound ctx rn).your_offers = ctx.your_offers := rfl
@[simp] theorem bumpRound_messages (ctx : NegotiationContext) (rn : ℕ) :
    (bumpRound ctx rn).messages = ctx.messages := rfl
@[simp] theorem bumpRound_current_round (ctx : NegotiationContext) (rn : ℕ) :
    (bumpRound ctx rn).current_round = (rn : ℤ) + 1 := rfl

@[simp] theorem appendBuyer_product (ctx : NegotiationContext) (bo : ℤ) (bm : String) :
    (appendBuyer ctx bo bm).product = ctx.product := rfl
@[simp] theorem appendBuyer_budget (ctx : NegotiationContext) (bo : ℤ) (bm : String) :
    (appendBuyer ctx bo bm).your_budget = ctx.your_budget := rfl
@[simp] theorem appendBuyer_seller_offers (ctx : NegotiationContext) (bo : ℤ) (bm : String) :
    (appendBuyer ctx bo bm).seller_offers = ctx.seller_offers := rfl
@[simp] theorem appendBuyer_your_offers (ctx : NegotiationContext) (bo : ℤ) (bm : String) :
    (appendBuyer ctx bo bm).your_offers = ctx.your_offers ++ [bo] := rfl
@[simp] theorem appendBuyer_messages (ctx : NegotiationContext) (bo : ℤ) (bm : String) :
    (appendBuyer ctx bo bm).messages = ctx.messages ++ [⟨"buyer", bm⟩] := rfl
@[simp] theorem appendBuyer_current_round (ctx : NegotiationContext) (bo : ℤ) (bm : String) :
    (appendBuyer ctx bo bm).current_round = ctx.current_round := rfl

@[simp] theorem appendSellerMsg_product (ctx : NegotiationContext) (sm : String) :
    (appendSellerMsg ctx sm).product = ctx.product := rfl
@[simp] theorem appendSellerMsg_budget (ctx : NegotiationContext) (sm : String) :
    (appendSellerMsg ctx sm).your_budget = ctx.your_budget := rfl
@[simp] theorem appendSellerMsg_seller_offers (ctx : NegotiationContext) (sm : String) :
    (appendSellerMsg ctx sm).seller_offers = ctx.seller_offers := rfl
@[simp] theorem appendSellerMsg_your_offers (ctx : NegotiationContext) (sm : String) :
    (appendSellerMsg ctx sm).your_offers = ctx.your_offers := rfl
@[simp] theorem appendSellerMsg_messages (ctx : NegotiationContext) (sm : String) :
    (appendSellerMsg ctx sm).messages = ctx.messages ++ [⟨"seller", sm⟩] := rfl
@[simp] theorem appendSellerMsg_current_round (ctx : NegotiationContext) (sm : String) :
    (appendSellerMsg ctx sm).current_round = ctx.current_round := rfl

@[simp] theorem appendSellerOffer_product (ctx : NegotiationContext) (sp : ℤ) (sm : String) :
    (appendSellerOffer ctx sp sm).product = ctx.product := rfl
@[simp] theorem appendSellerOffer_budget (ctx : NegotiationContext) (sp : ℤ) (sm : String) :
    (appendSellerOffer ctx sp sm).your_budget = ctx.your_budget := rfl
@[simp] theorem appendSellerOffer_seller_offers (ctx : NegotiationContext) (sp : ℤ) (sm : String) :
    (appendSellerOffer ctx sp sm).seller_offers = ctx.seller_offers ++ [sp] := rfl
@[simp] theorem appendSellerOffer_your_offers (ctx : NegotiationContext) (sp : ℤ) (sm : String) :
    (appendSellerOffer ctx sp sm).your_offers = ctx.your_offers := rfl
@[simp] theorem appendSellerOffer_messages (ctx : NegotiationContext) (sp : ℤ) (sm : String) :
    (appendSellerOffer ctx sp sm).messages = ctx.messages ++ [⟨"seller", sm⟩] := rfl
@[simp] theorem appendSellerOffer_current_round (ctx : NegotiationContext) (sp : ℤ) (sm : String) :
    (appendSellerOffer ctx sp sm).current_round = ctx.current_round := rfl

/-! ## Loop invariants -/

/-- Whenever the loop exits through the seller-acceptance branch, the
recorded final price is the buyer offer just appended, i.e. the last entry
of `your_offers`. -/
theorem negRounds_sellerAccepted_final (buyer : BuyerAgent) (min_price : ℤ) :
    ∀ (rounds_left round_num : ℕ) (ctx : NegotiationContext) (sp : ℤ) (sm : String)
      (lr : LoopResult),
      negotiationRounds buyer min_price ctx sp sm round_num rounds_left = some lr →
      lr.reason = TermReason.sellerAccepted →
      lr.final_price = some (lr.ctx.your_offers.getLastD 0) := by
  intro rounds_left
  induction rounds_left with
  | zero =>
    intro rn ctx sp sm lr h hr
    simp only [negotiationRounds, Option.some.injEq] at h
    subst h
    cases hr
  | succ rl ih =>
    intro rn ctx sp sm lr h hr
    rw [negotiationRounds] at h
    cases hstep : buyerStep buyer (bumpRound ctx rn) sp sm rn with
    | none => simp only [hstep] at h; exact Option.noConfusion h
    | some t =>
      obtain ⟨status, bo, bm⟩ := t
      simp only [hstep] at h
      by_cases hacc : status = DealStatus.accepted
      · rw [if_pos hacc, Option.some.injEq] at h
        subst h
        cases hr
      · rw [if_neg hacc] at h
        rcases hsr : StandardSeller_respond_to_buyer min_price bo rn with ⟨np, nm, _ | _⟩
        · simp only [hsr] at h
          exact ih (rn + 1) _ np nm lr h hr
        · simp only [hsr, Option.some.injEq] at h
          subst h
          simp [List.getLastD_concat]

/-- At every entry of the loop the `seller_price` variable is the last
recorded seller offer, so the buyer-acceptance branch locks in exactly the
last entry of `seller_offers` — whatever integer the buyer returned. -/
theorem negRounds_buyerAccepted_final (buyer : BuyerAgent) (min_price : ℤ) :
    ∀ (rounds_left round_num : ℕ) (ctx : NegotiationContext) (sp : ℤ) (sm : String)
      (lr : LoopResult),
      negotiationRounds buyer min_price ctx sp sm round_num rounds_left = some lr →
      ctx.seller_offers.getLastD 0 = sp →
      lr.reason = TermReason.buyerAccepted →
      lr.final_price = some (lr.ctx.seller_offers.getLastD 0) := by
  intro rounds_left
  induction rounds_left with
  | zero =>
    intro rn ctx sp sm lr h hinv hr
    simp only [negotiationRounds, Option.some.injEq] at h
    subst h
    cases hr
  | succ rl ih =>
    intro rn ctx sp sm lr h hinv hr
    rw [negotiationRounds] at h
    cases hstep : buyerStep buyer (bumpRound ctx rn) sp sm rn with
    | none => simp only [hstep] at h; exact Option.noConfusion h
    | some t =>
      obtain ⟨status, bo, bm⟩ := t
      simp only [hstep] at h
      by_cases hacc : status = DealStatus.accepted
      · rw [if_pos hacc, Option.some.injEq] at h
        subst h
        show some sp = some (ctx.seller_offers.getLastD 0)
        exact congrArg some hinv.symm
      · rw [if_neg hacc] at h
        rcases hsr : StandardSeller_respond_to_buyer min_price bo rn with ⟨np, nm, _ | _⟩
        · simp only [hsr] at h
          refine ih (rn + 1) _ np nm lr h ?_ hr
          simp [List.getLastD_concat]
        · simp only [hsr, Option.some.injEq] at h
          subst h
          cases hr

/-- Round bookkeeping: the final `current_round` is bounded by the entry
round plus the rounds that remain, and a run that ends with `deal_made`
false can only have exited through loop exhaustion, leaving no final
price. -/
theorem negRounds_rounds_and_timeout (buyer : BuyerAgent) (min_price : ℤ) :
    ∀ (rounds_left round_num : ℕ) (ctx : NegotiationContext) (sp : ℤ) (sm : String)
      (lr : LoopResult),
      negotiationRounds buyer min_price ctx sp sm round_num rounds_left = some lr →
      ctx.current_round ≤ (round_num : ℤ) →
      lr.ctx.current_round ≤ (round_num : ℤ) + rounds_left ∧
        (lr.deal_made = false → lr.reason = TermReason.timeout ∧ lr.final_price = none) := by
  intro rounds_left
  induction rounds_left with
  | zero =>
    intro rn ctx sp sm lr h hcr
    simp only [negotiationRounds, Option.some.injEq] at h
    subst h
    exact ⟨by simpa using hcr, fun _ => ⟨rfl, rfl⟩⟩
  | succ rl ih =>
    intro rn ctx sp sm lr h hcr
    rw [negotiationRounds] at h
    cases hstep : buyerStep buyer (bumpRound ctx rn) sp sm rn with
    | none => simp only [hstep] at h; exact Option.noConfusion h
    | some t =>
      obtain ⟨status, bo, bm⟩ := t
      simp only [hstep] at h
      by_cases hacc : status = DealStatus.accepted
      · rw [if_pos hacc, Option.some.injEq] at h
        subst h
        refine ⟨?_, fun hdm => by cases hdm⟩
        show (rn : ℤ) + 1 ≤ (rn : ℤ) + ((rl + 1 : ℕ) : ℤ)
        push_cast
        omega
      · rw [if_neg hacc] at h
        rcases hsr : StandardSeller_respond_to_buyer min_price bo rn with ⟨np, nm, _ | _⟩
        · simp only [hsr] at h
          have := ih (rn + 1) _ np nm lr h (by simp)
          refine ⟨?_, this.2⟩
          calc lr.ctx.current_round ≤ ((rn : ℤ) + 1) + rl := this.1
          _ = (rn : ℤ) + (rl + 1 : ℕ) := by push_cast; ring
        · simp only [hsr, Option.some.injEq] at h
          subst h
          refine ⟨?_, fun hdm => by cases hdm⟩
          show (rn : ℤ) + 1 ≤ (rn : ℤ) + ((rl + 1 : ℕ) : ℤ)
          push_cast
          omega

theorem transcriptRoles_append (l₁ l₂ : List Message) :
    transcriptRoles (l₁ ++ l₂) = transcriptRoles l₁ ++ transcriptRoles l₂ := by
  simp [transcriptRoles]

/-- Transcript shape invariant: the loop only ever appends a buyer entry
followed (possibly) by a seller entry, so alternation of the role tags and
the first tag are preserved, and the loop leaves a trailing seller tag as
the invariant for the next iteration. -/
theorem negRounds_transcript (buyer : BuyerAgent) (min_price : ℤ) :
    ∀ (rounds_left round_num : ℕ) (ctx : NegotiationContext) (sp : ℤ) (sm : String)
      (lr : LoopResult),
      negotiationRounds buyer min_price ctx sp sm round_num rounds_left = some lr →
      List.Chain' (· ≠ ·) (transcriptRoles ctx.messages) →
      (transcriptRoles ctx.messages).getLast? = some "seller" →
      List.Chain' (· ≠ ·) (transcriptRoles lr.ctx.messages) ∧
        (transcriptRoles lr.ctx.messages).head? = (transcriptRoles ctx.messages).head? := by
  intro rounds_left
  induction rounds_left with
  | zero =>
    intro rn ctx sp sm lr h hchain hlast
    simp only [negotiationRounds, Option.some.injEq] at h
    subst h
    exact ⟨hchain, rfl⟩
  | succ rl ih =>
    intro rn ctx sp sm lr h hchain hlast
    have hne : transcriptRoles ctx.messages ≠ [] := by
      intro hnil
      rw [hnil] at hlast
      cases hlast
    have hbchain : List.Chain' (· ≠ ·)
        (transcriptRoles ctx.messages ++ ["buyer"]) := by
      rw [List.chain'_append]
      refine ⟨hchain, List.chain'_singleton _, ?_⟩
      intro x hx y hy
      rw [hlast] at hx
      cases hx
      cases hy
      simp
    have hbhead : (transcriptRoles ctx.messages ++ ["buyer"]).head? =
        (transcriptRoles ctx.messages).head? :=
      List.head?_append_of_ne_nil _ hne
    have hblast : (transcriptRoles ctx.messages ++ ["buyer"]).getLast? = some "buyer" :=
      List.getLast?_concat _
    have hschain : List.Chain' (· ≠ ·)
        ((transcriptRoles ctx.messages ++ ["buyer"]) ++ ["seller"]) := by
      rw [List.chain'_append]
      refine ⟨hbchain, List.chain'_singleton _, ?_⟩
      intro x hx y hy
      rw [hblast] at hx
      cases hx
      cases hy
      simp
    have hshead : ((transcriptRoles ctx.messages ++ ["buyer"]) ++ ["seller"]).head? =
        (transcriptRoles ctx.messages).head? := by
      rw [List.head?_append_of_ne_nil _ (by simp [hne] : transcriptRoles ctx.messages ++ ["buyer"] ≠ [])]
      exact hbhead
    rw [negotiationRounds] at h
    cases hstep : buyerStep buyer (bumpRound ctx rn) sp sm rn with
    | none => simp only [hstep] at h; exact Option.noConfusion h
    | some t =>
      obtain ⟨status, bo, bm⟩ := t
      simp only [hstep] at h
      by_cases hacc : status = DealStatus.accepted
      · rw [if_pos hacc, Option.some.injEq] at h
        subst h
        refine ⟨?_, ?_⟩
        · show List.Chain' (· ≠ ·) (transcriptRoles (ctx.messages ++ [⟨"buyer", bm⟩]))
          rw [transcriptRoles_append]
          exact hbchain
        · show (transcriptRoles (ctx.messages ++ [⟨"buyer", bm⟩])).head? = _
          rw [transcriptRoles_append]
          exact hbhead
      · rw [if_neg hacc] at h
        rcases hsr : StandardSeller_respond_to_buyer min_price bo rn with ⟨np, nm, _ | _⟩
        · simp only [hsr] at h
          have hrec := ih (rn + 1) _ np nm lr h
            (by
              show List.Chain' (· ≠ ·)
                (transcriptRoles ((ctx.messages ++ [⟨"buyer", bm⟩]) ++ [⟨"seller", nm⟩]))
              rw [transcriptRoles_append, transcriptRoles_append]
              exact hschain)
            (by
              show (transcriptRoles ((ctx.messages ++ [⟨"buyer", bm⟩]) ++ [⟨"seller", nm⟩])).getLast? = some "seller"
              rw [transcriptRoles_append]
              exact List.getLast?_concat _)
          refine ⟨hrec.1, ?_⟩
          rw [hrec.2]
          show (transcriptRoles ((ctx.messages ++ [⟨"buyer", bm⟩]) ++ [⟨"seller", nm⟩])).head? = _
          rw [transcriptRoles_append, transcriptRoles_append]
          exact hshead
        · simp only [hsr, Option.some.injEq] at h
          subst h
          refine ⟨?_, ?_⟩
          · show List.Chain' (· ≠ ·)
              (transcriptRoles ((ctx.messages ++ [⟨"buyer", bm⟩]) ++ [⟨"seller", nm⟩]))
            rw [transcriptRoles_append, transcriptRoles_append]
            exact hschain
          · show (transcriptRoles ((ctx.messages ++ [⟨"buyer", bm⟩]) ++ [⟨"seller", nm⟩])).head? = _
            rw [transcriptRoles_append, transcriptRoles_append]
            exact hshead

/-- Projections of the result record in terms of the loop exit state, and
the no-deal defaults of `main.py` lines 63–71. -/
theorem negotiationResult_fields (product : Product) (buyer_budget : ℤ)
    (lr : LoopResult) (res : NegotiationResult)
    (h : negotiationResult product buyer_budget lr = some res) :
    res.deal_made = lr.deal_made ∧ res.rounds = lr.ctx.current_round ∧
      res.final_price = lr.final_price ∧ res.conversation = lr.ctx.messages ∧
      (lr.deal_made = false →
        res.savings = 0 ∧ res.savings_pct = ⟨0, 1⟩ ∧ res.below_market_pct = ⟨0, 1⟩) := by
  unfold negotiationResult at h
  by_cases hdm : lr.deal_made
  · rw [if_pos hdm] at h
    cases hfp : lr.final_price with
    | none => rw [hfp] at h; exact Option.noConfusion h
    | some fp =>
      rw [hfp] at h
      cases hq1 : pyDiv (pyOfInt (buyer_budget - fp)) (pyOfInt buyer_budget) with
      | none => simp only [hq1] at h; exact Option.noConfusion h
      | some sq =>
        simp only [hq1] at h
        cases hq2 : pyDiv (pyOfInt (product.base_market_price - fp))
            (pyOfInt product.base_market_price) with
        | none => simp only [hq2] at h; exact Option.noConfusion h
        | some bq =>
          simp only [hq2, Option.some.injEq] at h
          subst h
          exact ⟨rfl, rfl, rfl, rfl, fun hcon => by rw [hcon] at hdm; cases hdm⟩
  · rw [if_neg hdm] at h
    rw [Option.some.injEq] at h
    subst h
    exact ⟨rfl, rfl, rfl, rfl, fun _ => ⟨rfl, rfl, rfl⟩⟩

/-! ## Value-level facts about the reference strategies -/

theorem get_quality_multiplier_spec (g : String) :
    0 < (get_quality_multiplier g).den ∧ 0 ≤ (get_quality_multiplier g).toRat := by
  unfold get_quality_multiplier
  split_ifs <;> norm_num [PyFloat.toRat]

theorem get_origin_premium_spec (o : String) :
    0 < (get_origin_premium o).den ∧ 0 ≤ (get_origin_premium o).toRat := by
  unfold get_origin_premium
  split_ifs <;> norm_num [PyFloat.toRat]

theorem generate_opening_offer_fst (ctx : NegotiationContext) :
    (generate_opening_offer ctx).1 =
      min
        (pyTrunc (pyMul
          (pyMul (pyOfInt ctx.product.base_market_price)
            (pyAdd ⟨65, 100⟩
              (pyMul (get_quality_multiplier ctx.product.quality_grade) ⟨1, 10⟩)))
          (get_origin_premium ctx.product.origin)))
        (pyTrunc (pyMul (pyOfInt ctx.your_budget) ⟨85, 100⟩)) := rfl

/-- The opening offer is nonnegative and within budget (for a nonnegative
budget and market price): the second argument of the `min` at line 171 of
the template is `int(budget * 0.85)`. -/
theorem generate_opening_offer_bounds (ctx : NegotiationContext)
    (hb : 0 ≤ ctx.your_budget) (hm : 0 ≤ ctx.product.base_market_price) :
    0 ≤ (generate_opening_offer ctx).1 ∧
      (generate_opening_offer ctx).1 ≤ ctx.your_budget := by
  obtain ⟨hqd, hqr⟩ := get_quality_multiplier_spec ctx.product.quality_grade
  obtain ⟨hpd, hpr⟩ := get_origin_premium_spec ctx.product.origin
  rw [generate_opening_offer_fst]
  set qm := get_quality_multiplier ctx.product.quality_grade with hqm
  set pr := get_origin_premium ctx.product.origin with hpr2
  have hden2 : (pyMul qm ⟨1, 10⟩).den ≠ 0 := by
    simp only [pyMul]
    intro hcon
    omega
  have hAden : 0 < (pyMul
      (pyMul (pyOfInt ctx.product.base_market_price)
        (pyAdd ⟨65, 100⟩ (pyMul qm ⟨1, 10⟩))) pr).den := by
    simp only [pyMul, pyAdd, pyOfInt]
    positivity
  have hArat : 0 ≤ (pyMul
      (pyMul (pyOfInt ctx.product.base_market_price)
        (pyAdd ⟨65, 100⟩ (pyMul qm ⟨1, 10⟩))) pr).toRat := by
    rw [pyMul_toRat, pyMul_toRat, pyAdd_toRat _ _ (by norm_num) hden2,
      pyMul_toRat, pyOfInt_toRat]
    have h65 : (PyFloat.mk 65 100).toRat = 65 / 100 := by norm_num [PyFloat.toRat]
    have h110 : (PyFloat.mk 1 10).toRat = 1 / 10 := by norm_num [PyFloat.toRat]
    rw [h65, h110]
    have hmq : (0 : ℚ) ≤ (ctx.product.base_market_price : ℚ) := by exact_mod_cast hm
    have hsum : (0 : ℚ) ≤ 65 / 100 + qm.toRat * (1 / 10) := by positivity
    positivity
  have hBden : 0 < (pyMul (pyOfInt ctx.your_budget) ⟨85, 100⟩).den := by
    simp only [pyMul, pyOfInt]
    norm_num
  have hBrat : (pyMul (pyOfInt ctx.your_budget) ⟨85, 100⟩).toRat =
      (ctx.your_budget : ℚ) * (85 / 100) := by
    rw [pyMul_toRat, pyOfInt_toRat]
    norm_num [PyFloat.toRat]
  have hB0 : 0 ≤ pyTrunc (pyMul (pyOfInt ctx.your_budget) ⟨85, 100⟩) := by
    apply pyTrunc_nonneg hBden
    rw [hBrat]
    have : (0 : ℚ) ≤ (ctx.your_budget : ℚ) := by exact_mod_cast hb
    positivity
  have hBle : pyTrunc (pyMul (pyOfInt ctx.your_budget) ⟨85, 100⟩) ≤ ctx.your_budget := by
    apply pyTrunc_le hBden
    rw [hBrat]
    have : (0 : ℚ) ≤ (ctx.your_budget : ℚ) := by exact_mod_cast hb
    nlinarith
  exact ⟨le_min (pyTrunc_nonneg hAden hArat) hB0, le_trans (min_le_right _ _) hBle⟩

/-- `_calculate_counter_offer` always moves up by at least the
minimum increment `max(int(last_offer * 0.05), 5000)` over the last
recorded buyer offer. -/
theorem calculate_counter_offer_ge (seller_price : ℤ) (ctx : NegotiationContext)
    (phase : String) :
    ctx.your_offers.getLastD 0 + 5000 ≤ calculate_counter_offer seller_price ctx phase := by
  unfold calculate_counter_offer
  dsimp only
  omega

/-- `_should_accept_offer` only answers `True` for prices within budget:
the budget test at line 249 short-circuits everything else. -/
theorem should_accept_offer_le_budget (seller_price : ℤ) (ctx : NegotiationContext)
    (phase : String)
    (h : should_accept_offer seller_price ctx phase = some true) :
    seller_price ≤ ctx.your_budget := by
  unfold should_accept_offer at h
  split_ifs at h with h1
  · simp at h
  all_goals omega

/-- Structure of any non-raising answer of
`YourBuyerAgent.respond_to_seller_offer`: an acceptance echoes the seller
price and only happens within budget; a counter-offer is the clamped
`min(counter, budget)`, hence within budget, at least the previous offer
plus 5000 before clamping, and nonnegative whenever the previous offer and
the budget are. -/
theorem respond_to_seller_offer_spec (ctx : NegotiationContext) (seller_price : ℤ)
    (sm : String) (r : DealStatus × ℤ × String)
    (h : respond_to_seller_offer ctx seller_price sm = some r) :
    (r.1 = DealStatus.accepted ∧ r.2.1 = seller_price ∧
        seller_price ≤ ctx.your_budget) ∨
      (r.1 = DealStatus.ongoing ∧ r.2.1 ≤ ctx.your_budget ∧
        (ctx.your_offers.getLastD 0 ≤ ctx.your_budget →
          ctx.your_offers.getLastD 0 ≤ r.2.1) ∧
        (0 ≤ ctx.your_offers.getLastD 0 → 0 ≤ ctx.your_budget → 0 ≤ r.2.1)) := by
  unfold respond_to_seller_offer at h
  cases h1 : pyDiv (pyOfInt seller_price) (pyOfInt ctx.product.base_market_price) with
  | none => simp only [h1] at h; exact Option.noConfusion h
  | some q1 =>
    simp only [h1] at h
    cases h2 : pyDiv (pyOfInt seller_price) (pyOfInt ctx.your_budget) with
    | none => simp only [h2] at h; exact Option.noConfusion h
    | some q2 =>
      simp only [h2] at h
      cases h3 : should_accept_offer seller_price ctx
          (analyze_negotiation_phase ctx) with
      | none => simp only [h3] at h; exact Option.noConfusion h
      | some accept =>
        cases accept with
        | true =>
          simp only [h3, if_pos, Option.some.injEq] at h
          subst h
          exact Or.inl ⟨rfl, rfl, should_accept_offer_le_budget _ _ _ h3⟩
        | false =>
          simp only [h3, Bool.false_eq_true, if_false] at h
          cases h4 : generate_counter_message
              (min (calculate_counter_offer seller_price ctx (analyze_negotiation_phase ctx))
                ctx.your_budget)
              seller_price ctx (analyze_negotiation_phase ctx) with
          | none => simp only [h4] at h; exact Option.noConfusion h
          | some msg =>
            simp only [h4, Option.some.injEq] at h
            subst h
            refine Or.inr ⟨rfl, min_le_right _ _, ?_, ?_⟩
            · intro hlb
              have := calculate_counter_offer_ge seller_price ctx
                (analyze_negotiation_phase ctx)
              simp only []
              omega
            · intro hl0 hb0
              have := calculate_counter_offer_ge seller_price ctx
                (analyze_negotiation_phase ctx)
              simp only []
              omega

/-- When `StandardSeller.respond_to_buyer` rejects a nonnegative buyer
offer, its counter (5% or 15% above the offer, floored at `min_price`) is
at least the offer itself. -/
theorem standardSeller_counter_ge (min_price buyer_offer : ℤ) (round_num : ℕ)
    (np : ℤ) (nm : String)
    (h : StandardSeller_respond_to_buyer min_price buyer_offer round_num = (np, nm, false))
    (hv : 0 ≤ buyer_offer) : buyer_offer ≤ np := by
  have hv' : (0 : ℚ) ≤ (buyer_offer : ℚ) := by exact_mod_cast hv
  unfold StandardSeller_respond_to_buyer at h
  split_ifs at h with h1 h2
  · rw [Prod.mk.injEq, Prod.mk.injEq] at h
    exact absurd h.2.2 (by simp)
  · rw [Prod.mk.injEq, Prod.mk.injEq] at h
    rw [← h.1]
    refine le_trans ?_ (le_max_right _ _)
    apply le_pyTrunc
    · simp only [pyMul, pyOfInt]
      norm_num
    · rw [pyMul_toRat, pyOfInt_toRat]
      have : (PyFloat.mk 105 100).toRat = 105 / 100 := by norm_num [PyFloat.toRat]
      rw [this]
      nlinarith
  · rw [Prod.mk.injEq, Prod.mk.injEq] at h
    rw [← h.1]
    refine le_trans ?_ (le_max_right _ _)
    apply le_pyTrunc
    · simp only [pyMul, pyOfInt]
      norm_num
    · rw [pyMul_toRat, pyOfInt_toRat]
      have : (PyFloat.mk 115 100).toRat = 115 / 100 := by norm_num [PyFloat.toRat]
      rw [this]
      nlinarith

theorem chain'_le_concat {l : List ℤ} {a : ℤ} (hc : List.Chain' (· ≤ ·) l)
    (h : l.getLastD 0 ≤ a) : List.Chain' (· ≤ ·) (l ++ [a]) := by
  rw [List.chain'_append]
  refine ⟨hc, List.chain'_singleton _, ?_⟩
  intro x hx y hy
  have hy' : y = a := by
    simp only [List.head?_cons, Option.mem_def, Option.some.injEq] at hy
    exact hy.symm
  subst hy'
  have hx' : l.getLastD 0 = x := by
    rw [List.getLastD_eq_getLast?, Option.mem_def.mp hx]
    rfl
  omega

/-- Main invariant of the loop when driven by the reference buyer against
`StandardSeller`: with a nonnegative budget and market price, the recorded
buyer offers stay a nondecreasing list, and any recorded final price of a
deal stays within the budget. -/
theorem negRounds_yourBuyer_inv (min_price : ℤ) :
    ∀ (rounds_left round_num : ℕ) (ctx : NegotiationContext) (sp : ℤ) (sm : String)
      (lr : LoopResult),
      negotiationRounds yourBuyerAgent min_price ctx sp sm round_num rounds_left = some lr →
      0 ≤ ctx.your_budget →
      0 ≤ ctx.product.base_market_price →
      List.Chain' (· ≤ ·) ctx.your_offers →
      0 ≤ ctx.your_offers.getLastD 0 →
      ctx.your_offers.getLastD 0 ≤ ctx.your_budget →
      (round_num ≠ 0 → ctx.your_offers.getLastD 0 ≤ sp) →
      (round_num = 0 → ctx.your_offers = []) →
      List.Chain' (· ≤ ·) lr.ctx.your_offers ∧
        (lr.deal_made = true → ∃ fp, lr.final_price = some fp ∧ fp ≤ ctx.your_budget) := by
  intro rounds_left
  induction rounds_left with
  | zero =>
    intro rn ctx sp sm lr h hb hm hchain hl0 hlb hsp h0
    simp only [negotiationRounds, Option.some.injEq] at h
    subst h
    exact ⟨hchain, fun hdm => by cases hdm⟩
  | succ rl ih =>
    intro rn ctx sp sm lr h hb hm hchain hl0 hlb hsp h0
    rw [negotiationRounds] at h
    by_cases hrn : rn = 0
    · -- opening round: the buyer turn is `generate_opening_offer`
      subst hrn
      have hoff : ctx.your_offers = [] := h0 rfl
      have hstep : buyerStep yourBuyerAgent (bumpRound ctx 0) sp sm 0 =
          some (DealStatus.ongoing, (generate_opening_offer (bumpRound ctx 0)).1,
            (generate_opening_offer (bumpRound ctx 0)).2) := rfl
      simp only [hstep] at h
      rw [if_neg (by simp)] at h
      obtain ⟨hbo0, hbole⟩ := generate_opening_offer_bounds (bumpRound ctx 0)
        (by simpa using hb) (by simpa using hm)
      set bo := (generate_opening_offer (bumpRound ctx 0)).1 with hbo
      rcases hsr : StandardSeller_respond_to_buyer min_price bo 0 with ⟨np, nm, _ | _⟩
      · simp only [hsr] at h
        have hrec := ih 1 _ np nm lr h
          (by simpa using hb) (by simpa using hm)
          (by simp [hoff])
          (by simp [hoff, List.getLastD_concat]; exact hbo0)
          (by simp [hoff, List.getLastD_concat]; simpa using hbole)
          (by
            intro _
            simp only [appendSellerOffer_your_offers, appendBuyer_your_offers,
              bumpRound_your_offers, hoff, List.nil_append, List.getLastD_concat]
            exact standardSeller_counter_ge min_price bo 0 np nm hsr hbo0)
          (by intro hcon; cases hcon)
        exact ⟨hrec.1, fun hdm => by
          obtain ⟨fp, hfp, hfple⟩ := hrec.2 hdm
          exact ⟨fp, hfp, by simpa using hfple⟩⟩
      · simp only [hsr, Option.some.injEq] at h
        subst h
        refine ⟨?_, fun _ => ⟨bo, rfl, by simpa using hbole⟩⟩
        simp only [appendSellerMsg_your_offers, appendBuyer_your_offers,
          bumpRound_your_offers, hoff, List.nil_append]
        exact List.chain'_singleton _
    · -- later rounds: the buyer turn is `respond_to_seller_offer`
      have hstep : buyerStep yourBuyerAgent (bumpRound ctx rn) sp sm rn =
          respond_to_seller_offer (bumpRound ctx rn) sp sm := by
        unfold buyerStep
        rw [if_neg hrn]
        rfl
      rw [hstep] at h
      cases hresp : respond_to_seller_offer (bumpRound ctx rn) sp sm with
      | none => simp only [hresp] at h; exact Option.noConfusion h
      | some r =>
        obtain ⟨status, bo, bm⟩ := r
        simp only [hresp] at h
        have hspec := respond_to_seller_offer_spec (bumpRound ctx rn) sp sm _ hresp
        rcases hspec with ⟨hst, hbo, hsple⟩ | ⟨hst, hble, hmono, hpos⟩
        · -- acceptance: the driver locks in the seller price
          simp only at hst
          rw [if_pos (by rw [hst]), Option.some.injEq] at h
          subst h
          simp only at hbo
          refine ⟨?_, fun _ => ⟨sp, rfl, by simpa using hsple⟩⟩
          simp only [appendBuyer_your_offers, bumpRound_your_offers]
          exact chain'_le_concat hchain (by rw [hbo]; exact hsp hrn)
        · -- counter-offer
          simp only at hst hble hmono hpos
          rw [if_neg (by rw [hst]; simp)] at h
          have hboge : ctx.your_offers.getLastD 0 ≤ bo := by
            apply hmono
            simpa using hlb
          have hbo0 : 0 ≤ bo := by
            apply hpos
            · simpa using hl0
            · simpa using hb
          have hbole : bo ≤ ctx.your_budget := by simpa using hble
          rcases hsr : StandardSeller_respond_to_buyer min_price bo rn with ⟨np, nm, _ | _⟩
          · simp only [hsr] at h
            have hrec := ih (rn + 1) _ np nm lr h
              (by simpa using hb) (by simpa using hm)
              (by
                simp only [appendSellerOffer_your_offers, appendBuyer_your_offers,
                  bumpRound_your_offers]
                exact chain'_le_concat hchain hboge)
              (by
                simp only [appendSellerOffer_your_offers, appendBuyer_your_offers,
                  bumpRound_your_offers, List.getLastD_concat]
                exact hbo0)
              (by
                simp only [appendSellerOffer_your_offers, appendBuyer_your_offers,
                  bumpRound_your_offers, appendSellerOffer_budget, appendBuyer_budget,
                  bumpRound_budget, List.getLastD_concat]
                exact hbole)
              (by
                intro _
                simp only [appendSellerOffer_your_offers, appendBuyer_your_offers,
                  bumpRound_your_offers, List.getLastD_concat]
                exact standardSeller_counter_ge min_price bo rn np nm hsr hbo0)
              (by intro hcon; cases hcon)
            exact ⟨hrec.1, fun hdm => by
              obtain ⟨fp, hfp, hfple⟩ := hrec.2 hdm
              exact ⟨fp, hfp, by simpa using hfple⟩⟩
          · simp only [hsr, Option.some.injEq] at h
            subst h
            refine ⟨?_, fun _ => ⟨bo, rfl, hbole⟩⟩
            simp only [appendSellerMsg_your_offers, appendBuyer_your_offers,
              bumpRound_your_offers]
            exact chain'_le_concat hchain hboge

/-- Budget part of the opening bound on its own: the opening offer never
exceeds the budget as soon as the budget is nonnegative, whatever the
market price. -/
theorem generate_opening_offer_le_budget (ctx : NegotiationContext)
    (hb : 0 ≤ ctx.your_budget) :
    (generate_opening_offer ctx).1 ≤ ctx.your_budget := by
  rw [generate_opening_offer_fst]
  have hBden : 0 < (pyMul (pyOfInt ctx.your_budget) ⟨85, 100⟩).den := by
    simp only [pyMul, pyOfInt]
    norm_num
  have hBle : pyTrunc (pyMul (pyOfInt ctx.your_budget) ⟨85, 100⟩) ≤ ctx.your_budget := by
    apply pyTrunc_le hBden
    rw [pyMul_toRat, pyOfInt_toRat]
    have h85 : (PyFloat.mk 85 100).toRat = 85 / 100 := by norm_num [PyFloat.toRat]
    rw [h85]
    have : (0 : ℚ) ≤ (ctx.your_budget : ℚ) := by exact_mod_cast hb
    nlinarith
  exact le_trans (min_le_right _ _) hBle

/-- Budget invariant of the loop when driven by the reference buyer: for a
nonnegative budget, every deal closes at a price within the budget (the
market price may be arbitrary). -/
theorem negRounds_yourBuyer_budget (min_price : ℤ) :
    ∀ (rounds_left round_num : ℕ) (ctx : NegotiationContext) (sp : ℤ) (sm : String)
      (lr : LoopResult),
      negotiationRounds yourBuyerAgent min_price ctx sp sm round_num rounds_left = some lr →
      0 ≤ ctx.your_budget →
      lr.deal_made = true → ∃ fp, lr.final_price = some fp ∧ fp ≤ ctx.your_budget := by
  intro rounds_left
  induction rounds_left with
  | zero =>
    intro rn ctx sp sm lr h hb hdm
    simp only [negotiationRounds, Option.some.injEq] at h
    subst h
    cases hdm
  | succ rl ih =>
    intro rn ctx sp sm lr h hb hdm
    rw [negotiationRounds] at h
    by_cases hrn : rn = 0
    · subst hrn
      have hstep : buyerStep yourBuyerAgent (bumpRound ctx 0) sp sm 0 =
          some (DealStatus.ongoing, (generate_opening_offer (bumpRound ctx 0)).1,
            (generate_opening_offer (bumpRound ctx 0)).2) := rfl
      simp only [hstep] at h
      rw [if_neg (by simp)] at h
      have hbole := generate_opening_offer_le_budget (bumpRound ctx 0) (by simpa using hb)
      set bo := (generate_opening_offer (bumpRound ctx 0)).1 with hbo
      rcases hsr : StandardSeller_respond_to_buyer min_price bo 0 with ⟨np, nm, _ | _⟩
      · simp only [hsr] at h
        obtain ⟨fp, hfp, hfple⟩ := ih 1 _ np nm lr h (by simpa using hb) hdm
        exact ⟨fp, hfp, by simpa using hfple⟩
      · simp only [hsr, Option.some.injEq] at h
        subst h
        exact ⟨bo, rfl, by simpa using hbole⟩
    · have hstep : buyerStep yourBuyerAgent (bumpRound ctx rn) sp sm rn =
          respond_to_seller_offer (bumpRound ctx rn) sp sm := by
        unfold buyerStep
        rw [if_neg hrn]
        rfl
      rw [hstep] at h
      cases hresp : respond_to_seller_offer (bumpRound ctx rn) sp sm with
      | none => simp only [hresp] at h; exact Option.noConfusion h
      | some r =>
        obtain ⟨status, bo, bm⟩ := r
        simp only [hresp] at h
        have hspec := respond_to_seller_offer_spec (bumpRound ctx rn) sp sm _ hresp
        rcases hspec with ⟨hst, hbo, hsple⟩ | ⟨hst, hble, hmono, hpos⟩
        · simp only at hst
          rw [if_pos (by rw [hst]), Option.some.injEq] at h
          subst h
          exact ⟨sp, rfl, by simpa using hsple⟩
        · simp only at hst hble
          rw [if_neg (by rw [hst]; simp)] at h
          have hbole : bo ≤ ctx.your_budget := by simpa using hble
          rcases hsr : StandardSeller_respond_to_buyer min_price bo rn with ⟨np, nm, _ | _⟩
          · simp only [hsr] at h
            obtain ⟨fp, hfp, hfple⟩ := ih (rn + 1) _ np nm lr h (by simpa using hb) hdm
            exact ⟨fp, hfp, by simpa using hfple⟩
          · simp only [hsr, Option.some.injEq] at h
            subst h
            exact ⟨bo, rfl, hbole⟩

/-- Claim C7: `scenario_triplets 180000` yields exactly the six documented
values (multipliers 1.20/0.80, 1.00/0.85, 0.90/0.82 of the market price,
truncated to integers). -/
theorem scenario_triplets_at_180000 :
    (scenario_triplets 180000).easy.buyer_budget = 216000 ∧
    (scenario_triplets 180000).easy.seller_min = 144000 ∧
    (scenario_triplets 180000).medium.buyer_budget = 180000 ∧
    (scenario_triplets 180000).medium.seller_min = 153000 ∧
    (scenario_triplets 180000).hard.buyer_budget = 162000 ∧
    (scenario_triplets 180000).hard.seller_min = 147600 := by
  refine ⟨?_, ?_, ?_, ?_, ?_, ?_⟩ <;> decide


/-! ## Claim theorems -/

/-- Claim C1: for every negotiation run by the driver, if the buyer response
signals ACCEPTED in some round, the recorded `final_price` is the seller
price of that round — which is always the last element of `seller_offers`
at that moment — and not the integer the buyer returned, even when the two
differ (the theorem holds for every buyer, whatever integer it returns). -/
theorem buyer_acceptance_locks_last_seller_offer (buyer : BuyerAgent)
    (max_rounds : ℕ) (product : Product) (buyer_budget seller_min : ℤ)
    (lr : LoopResult)
    (h : run_negotiation_full buyer max_rounds product buyer_budget seller_min = some lr)
    (hr : lr.reason = TermReason.buyerAccepted) :
    lr.final_price = some (lr.ctx.seller_offers.getLastD 0) := by
  unfold run_negotiation_full at h
  exact negRounds_buyerAccepted_final buyer seller_min max_rounds 0 _ _ _ lr h (by simp) hr

/-- Witness for C1: a buyer that accepts while returning 123 still closes at
the seller price 100000, the last recorded seller offer. -/
theorem buyer_acceptance_locks_last_seller_offer_witness :
    run_negotiation_full acceptBuyer 2 prodA 500000 100000 = some c1_lr ∧
      c1_lr.reason = TermReason.buyerAccepted ∧
      c1_lr.final_price = some (c1_lr.ctx.seller_offers.getLastD 0) :=
  ⟨(Option.some_get (by decide)).symm, by decide,
    buyer_acceptance_locks_last_seller_offer acceptBuyer 2 prodA 500000 100000 c1_lr
      (Option.some_get (by decide)).symm (by decide)⟩

/-- Claim C2: when the seller signals acceptance of a buyer offer, the
recorded `final_price` is exactly the buyer offer just given in that round
(the last entry of `your_offers`) — the reverse asymmetry of C1. -/
theorem seller_acceptance_locks_buyer_offer (buyer : BuyerAgent)
    (max_rounds : ℕ) (product : Product) (buyer_budget seller_min : ℤ)
    (lr : LoopResult)
    (h : run_negotiation_full buyer max_rounds product buyer_budget seller_min = some lr)
    (hr : lr.reason = TermReason.sellerAccepted) :
    lr.final_price = some (lr.ctx.your_offers.getLastD 0) := by
  unfold run_negotiation_full at h
  exact negRounds_sellerAccepted_final buyer seller_min max_rounds 0 _ _ _ lr h hr

/-- Witness for C2: in the easy Alphonso scenario the seller accepts the
buyer offer of round 3, and the deal closes at that buyer offer. -/
theorem seller_acceptance_locks_buyer_offer_witness :
    run_negotiation_full yourBuyerAgent 10 prodA 216000 144000 = some c2_lr ∧
      c2_lr.reason = TermReason.sellerAccepted ∧
      c2_lr.final_price = some (c2_lr.ctx.your_offers.getLastD 0) :=
  ⟨(Option.some_get (by decide)).symm, by decide,
    seller_acceptance_locks_buyer_offer yourBuyerAgent 10 prodA 216000 144000 c2_lr
      (Option.some_get (by decide)).symm (by decide)⟩

/-- Claim C3: for every completed negotiation of the reference buyer against
`StandardSeller` with a nonnegative budget, `deal_made` implies the final
price is within the budget. -/
theorem deal_final_price_le_budget (max_rounds : ℕ) (product : Product)
    (buyer_budget seller_min : ℤ) (res : NegotiationResult)
    (hb : 0 ≤ buyer_budget)
    (h : run_negotiation_test yourBuyerAgent max_rounds product buyer_budget seller_min =
      some res)
    (hd : res.deal_made = true) :
    ∃ fp, res.final_price = some fp ∧ fp ≤ buyer_budget := by
  unfold run_negotiation_test at h
  cases hfull : run_negotiation_full yourBuyerAgent max_rounds product buyer_budget
      seller_min with
  | none => rw [hfull] at h; exact Option.noConfusion h
  | some lr =>
    rw [hfull] at h
    obtain ⟨hdm, _, hfp, _, _⟩ := negotiationResult_fields product buyer_budget lr res h
    unfold run_negotiation_full at hfull
    obtain ⟨fp, hfp2, hfple⟩ := negRounds_yourBuyer_budget seller_min max_rounds 0 _ _ _ lr
      hfull hb (by rw [← hdm]; exact hd)
    exact ⟨fp, by rw [hfp, hfp2], hfple⟩

/-- Witness for C3: the easy Alphonso scenario closes at 159355, within the
budget 216000. -/
theorem deal_final_price_le_budget_witness :
    (0 : ℤ) ≤ 216000 ∧
      run_negotiation_test yourBuyerAgent 10 prodA 216000 144000 = some c3_res ∧
      c3_res.deal_made = true ∧
      ∃ fp, c3_res.final_price = some fp ∧ fp ≤ 216000 :=
  ⟨by decide, (Option.some_get (by decide)).symm, by decide,
    deal_final_price_le_budget 10 prodA 216000 144000 c3_res (by decide)
      (Option.some_get (by decide)).symm (by decide)⟩

/-- Claim C4 counterexample: with budget 0 and seller minimum 0 the seller
accepts the opening offer 0, so `deal_made` is true, and the percentage
computation divides by the zero budget and raises (modelled `none`) instead
of returning 0. -/
theorem division_guard_counterexample :
    (run_negotiation_full yourBuyerAgent 10 prodA 0 0).map LoopResult.deal_made =
        some true ∧
      run_negotiation_test yourBuyerAgent 10 prodA 0 0 = none := by
  constructor
  · decide
  · decide

/-- Claim C4 (amended): the percentage metrics are guarded only by the
`deal_made` flag; when a deal was made with a zero budget or zero market
price, the result computation raises a `ZeroDivisionError` (modelled as
`none`) rather than returning 0. -/
theorem percentages_guarded_only_by_deal_made (buyer : BuyerAgent)
    (max_rounds : ℕ) (product : Product) (buyer_budget seller_min : ℤ)
    (lr : LoopResult)
    (h : run_negotiation_full buyer max_rounds product buyer_budget seller_min = some lr)
    (hdm : lr.deal_made = true)
    (hz : buyer_budget = 0 ∨ product.base_market_price = 0) :
    run_negotiation_test buyer max_rounds product buyer_budget seller_min = none := by
  unfold run_negotiation_test
  rw [h]
  show negotiationResult product buyer_budget lr = none
  unfold negotiationResult
  rw [if_pos hdm]
  have hdiv0 : ∀ a : ℤ, pyDiv (pyOfInt a) (pyOfInt 0) = none := by
    intro a
    unfold pyDiv pyOfInt
    rw [if_pos rfl]
  cases hfp : lr.final_price with
  | none => simp only [hfp]
  | some fp =>
    simp only [hfp]
    rcases hz with hz | hz
    · subst hz
      rw [hdiv0]
    · by_cases hbb : buyer_budget = 0
      · subst hbb
        rw [hdiv0]
      · cases hq1 : pyDiv (pyOfInt (buyer_budget - fp)) (pyOfInt buyer_budget) with
        | none => simp only [hq1]
        | some sq =>
          simp only [hq1, hz]
          rw [hdiv0]

/-- Witness for the amended C4: the budget-0 run has `deal_made` true and
the driver raises. -/
theorem percentages_guarded_only_by_deal_made_witness :
    run_negotiation_full yourBuyerAgent 10 prodA 0 0 = some c4_lr ∧
      c4_lr.deal_made = true ∧ ((0 : ℤ) = 0 ∨ prodA.base_market_price = 0) ∧
      run_negotiation_test yourBuyerAgent 10 prodA 0 0 = none :=
  ⟨(Option.some_get (by decide)).symm, by decide, Or.inl rfl,
    percentages_guarded_only_by_deal_made yourBuyerAgent 10 prodA 0 0 c4_lr
      (Option.some_get (by decide)).symm (by decide) (Or.inl rfl)⟩

/-- Claim C5: the round counter recorded in the result never exceeds the
round budget, and a run ending with `deal_made` false can only have ended by
exhausting the loop (the TIMEOUT exit), never through an acceptance
branch. -/
theorem rounds_capped_and_no_deal_is_timeout (buyer : BuyerAgent)
    (max_rounds : ℕ) (product : Product) (buyer_budget seller_min : ℤ)
    (lr : LoopResult)
    (h : run_negotiation_full buyer max_rounds product buyer_budget seller_min = some lr) :
    lr.ctx.current_round ≤ (max_rounds : ℤ) ∧
      (∀ res, run_negotiation_test buyer max_rounds product buyer_budget seller_min =
        some res → res.rounds ≤ (max_rounds : ℤ)) ∧
      (lr.deal_made = false → lr.reason = TermReason.timeout) := by
  have hmain := negRounds_rounds_and_timeout buyer seller_min max_rounds 0 _ _ _ lr h
    (by simp)
  refine ⟨by simpa using hmain.1, ?_, fun hdm => (hmain.2 hdm).1⟩
  intro res hres
  unfold run_negotiation_test at hres
  rw [h] at hres
  have hfields := negotiationResult_fields product buyer_budget lr res hres
  rw [hfields.2.1]
  simpa using hmain.1

/-- Witness for C5: the starved run (budget 1000) times out after exactly 10
rounds. -/
theorem rounds_capped_and_no_deal_is_timeout_witness :
    run_negotiation_full yourBuyerAgent 10 prodA 1000 100000 = some c5_lr ∧
      (c5_lr.ctx.current_round ≤ (10 : ℤ) ∧
        (∀ res, run_negotiation_test yourBuyerAgent 10 prodA 1000 100000 = some res →
          res.rounds ≤ (10 : ℤ)) ∧
        (c5_lr.deal_made = false → c5_lr.reason = TermReason.timeout)) :=
  ⟨(Option.some_get (by decide)).symm,
    rounds_capped_and_no_deal_is_timeout yourBuyerAgent 10 prodA 1000 100000 c5_lr
      (Option.some_get (by decide)).symm⟩

/-- Claim C6: a run that ends with `deal_made` false reports no final price
and the metric defaults `savings = 0`, `savings_pct = 0.0`,
`below_market_pct = 0.0` (`⟨0, 1⟩` is the model of the float `0.0`). -/
theorem no_deal_metric_defaults (buyer : BuyerAgent) (max_rounds : ℕ)
    (product : Product) (buyer_budget seller_min : ℤ) (res : NegotiationResult)
    (h : run_negotiation_test buyer max_rounds product buyer_budget seller_min = some res)
    (hd : res.deal_made = false) :
    res.final_price = none ∧ res.savings = 0 ∧ res.savings_pct = ⟨0, 1⟩ ∧
      res.below_market_pct = ⟨0, 1⟩ := by
  unfold run_negotiation_test at h
  cases hfull : run_negotiation_full buyer max_rounds product buyer_budget seller_min with
  | none => rw [hfull] at h; exact Option.noConfusion h
  | some lr =>
    rw [hfull] at h
    obtain ⟨hdm, _, hfp, _, hdef⟩ := negotiationResult_fields product buyer_budget lr res h
    have hlr_dm : lr.deal_made = false := by rw [← hdm]; exact hd
    have hnone := (negRounds_rounds_and_timeout buyer seller_min max_rounds 0 _ _ _ lr
      hfull (by simp)).2 hlr_dm
    obtain ⟨hsav, hsp, hbp⟩ := hdef hlr_dm
    exact ⟨by rw [hfp, hnone.2], hsav, hsp, hbp⟩

/-- Witness for C6: the starved run reports no deal and the zero defaults. -/
theorem no_deal_metric_defaults_witness :
    run_negotiation_test yourBuyerAgent 10 prodA 1000 100000 = some c6_res ∧
      c6_res.deal_made = false ∧
      (c6_res.final_price = none ∧ c6_res.savings = 0 ∧ c6_res.savings_pct = ⟨0, 1⟩ ∧
        c6_res.below_market_pct = ⟨0, 1⟩) :=
  ⟨(Option.some_get (by decide)).symm, by decide,
    no_deal_metric_defaults yourBuyerAgent 10 prodA 1000 100000 c6_res
      (Option.some_get (by decide)).symm (by decide)⟩

/-- Every price returned by `YourBuyerAgent.respond_to_seller_offer` — the
counter of line 196 as well as the echoed acceptance price — is within
`context.your_budget`. -/
theorem respond_price_le_budget (ctx : NegotiationContext) (seller_price : ℤ)
    (sm : String) (st : DealStatus) (c : ℤ) (m : String)
    (h : respond_to_seller_offer ctx seller_price sm = some (st, c, m)) :
    c ≤ ctx.your_budget := by
  rcases respond_to_seller_offer_spec ctx seller_price sm _ h with
    ⟨_, hco, hle⟩ | ⟨_, hle, _, _⟩
  · simp only at hco
    simp only [hco]
    exact hle
  · exact hle

/-- Claim C8 counterexample: contrary to the claim, there is no context and
seller price for which `respond_to_seller_offer` returns a price exceeding
`context.your_budget` — line 196 of the template clamps every counter with
`min(counter_offer, context.your_budget)`. -/
theorem respond_never_exceeds_budget :
    ¬ ∃ (ctx : NegotiationContext) (seller_price : ℤ) (sm : String)
      (st : DealStatus) (c : ℤ) (m : String),
      respond_to_seller_offer ctx seller_price sm = some (st, c, m) ∧
        ctx.your_budget < c := by
  rintro ⟨ctx, seller_price, sm, st, c, m, h, hlt⟩
  have := respond_price_le_budget ctx seller_price sm st c m h
  omega

/-- Claim C8 (amended): the helper `_calculate_counter_offer` by itself
ignores the budget (it always proposes at least the previous offer plus
5000), but `respond_to_seller_offer` clamps every counter with
`min(counter_offer, context.your_budget)` and accepts only within budget,
so the returned price never exceeds `context.your_budget`. -/
theorem respond_clamps_counter_at_budget (ctx : NegotiationContext)
    (seller_price : ℤ) (sm : String) (st : DealStatus) (c : ℤ) (m : String)
    (h : respond_to_seller_offer ctx seller_price sm = some (st, c, m)) :
    c ≤ ctx.your_budget ∧
      ctx.your_offers.getLastD 0 + 5000 ≤
        calculate_counter_offer seller_price ctx (analyze_negotiation_phase ctx) :=
  ⟨respond_price_le_budget ctx seller_price sm st c m h,
    calculate_counter_offer_ge seller_price ctx (analyze_negotiation_phase ctx)⟩

/-- Witness for the amended C8: a mid-negotiation context with budget
100000; the raw counter moves up from 50000 but the returned counter is
clamped within the budget. -/
theorem respond_clamps_counter_at_budget_witness :
    respond_to_seller_offer ctx0 270000 "I ask 270000." =
        some (c8_r.1, c8_r.2.1, c8_r.2.2) ∧
      c8_r.2.1 ≤ ctx0.your_budget ∧
      ctx0.your_offers.getLastD 0 + 5000 ≤
        calculate_counter_offer 270000 ctx0 (analyze_negotiation_phase ctx0) :=
  ⟨(Option.some_get (by decide)).symm,
    (respond_clamps_counter_at_budget ctx0 270000 "I ask 270000." c8_r.1 c8_r.2.1 c8_r.2.2
      (Option.some_get (by decide)).symm).1,
    (respond_clamps_counter_at_budget ctx0 270000 "I ask 270000." c8_r.1 c8_r.2.1 c8_r.2.2
      (Option.some_get (by decide)).symm).2⟩

/-- Claim C9: the transcript strictly alternates role tags starting with
"seller": the first entry is tagged "seller" and no two consecutive entries
carry the same tag. -/
theorem transcript_alternates (buyer : BuyerAgent) (max_rounds : ℕ)
    (product : Product) (buyer_budget seller_min : ℤ) (lr : LoopResult)
    (h : run_negotiation_full buyer max_rounds product buyer_budget seller_min = some lr) :
    (transcriptRoles lr.ctx.messages).head? = some "seller" ∧
      List.Chain' (· ≠ ·) (transcriptRoles lr.ctx.messages) := by
  unfold run_negotiation_full at h
  have hmain := negRounds_transcript buyer seller_min max_rounds 0 _ _ _ lr h
    (by simp [transcriptRoles])
    (by simp [transcriptRoles])
  refine ⟨?_, hmain.1⟩
  rw [hmain.2]
  simp [transcriptRoles]

/-- Witness for C9 at the easy Alphonso run. -/
theorem transcript_alternates_witness :
    run_negotiation_full yourBuyerAgent 10 prodA 216000 144000 = some c2_lr ∧
      ((transcriptRoles c2_lr.ctx.messages).head? = some "seller" ∧
        List.Chain' (· ≠ ·) (transcriptRoles c2_lr.ctx.messages)) :=
  ⟨(Option.some_get (by decide)).symm,
    transcript_alternates yourBuyerAgent 10 prodA 216000 144000 c2_lr
      (Option.some_get (by decide)).symm⟩

/-- Claim C10: with the reference buyer, a nonnegative budget and a
nonnegative market price, the recorded buyer offers form a nondecreasing
sequence: every counter is pushed up by at least
`max(int(last_offer * 0.05), 5000)` before the budget clamp, and the clamp
and the acceptance append never drop below the previous offer. -/
theorem your_offers_nondecreasing (max_rounds : ℕ) (product : Product)
    (buyer_budget seller_min : ℤ) (lr : LoopResult)
    (hb : 0 ≤ buyer_budget) (hm : 0 ≤ product.base_market_price)
    (h : run_negotiation_full yourBuyerAgent max_rounds product buyer_budget seller_min =
      some lr) :
    List.Chain' (· ≤ ·) lr.ctx.your_offers := by
  unfold run_negotiation_full at h
  exact (negRounds_yourBuyer_inv seller_min max_rounds 0 _ _ _ lr h hb hm
    (by simp) (by simp) (by simpa using hb) (by intro hcon; cases hcon rfl)
    (fun _ => rfl)).1

/-- Witness for C10 at the easy Alphonso run: offers 144540, 151767, 159355. -/
theorem your_offers_nondecreasing_witness :
    (0 : ℤ) ≤ 216000 ∧ (0 : ℤ) ≤ prodA.base_market_price ∧
      run_negotiation_full yourBuyerAgent 10 prodA 216000 144000 = some c2_lr ∧
      List.Chain' (· ≤ ·) c2_lr.ctx.your_offers :=
  ⟨by decide, by decide, (Option.some_get (by decide)).symm,
    your_offers_nondecreasing 10 prodA 216000 144000 c2_lr (by decide) (by decide)
      (Option.some_get (by decide)).symm⟩
